import Mathlib

/-!
Shallow embedding of the analytics engine of the Fragmented-SQU procurement
analysis repository (`src/analysis/analyze_data.py` together with the JSON
boundary helper `to_json_safe_dict` of `src/api/routers/purchase_orders.py`).

The Record Table is a list of transaction line items.  Key columns are
`Option String` (a `none` key is pandas `NaN`); measure columns are
`Option ℚ` (`none` is the NaN missing sentinel, and the aggregations
reproduce pandas' skipna semantics: `sum` skips NaN and returns 0 on an
empty set, `mean`/`min` skip NaN and return NaN on an empty set,
`nunique` counts distinct non-null values).  `groupby` follows the pandas
default `dropna=True`: a row whose grouping key is null joins no group.
Monetary arithmetic is exact (ℚ); the float special values produced by
the engine (NaN from 0/0, ±inf from x/0) are modelled explicitly by the
`FV` carrier type with IEEE division semantics.  pandas emits group keys
sorted ascending; every property proved below is insensitive to the
order of distinct group keys, so `uniq` keeps them in first-occurrence
order.
-/

set_option maxHeartbeats 1000000

namespace SQU

/-- One row of the Record Table (`cleaned_purchase_orders.csv` after
`load_master_data`).  `created_month` is the calendar-month bucket index
(year*12+month) that `pd.Grouper(key='created_date', freq='M')` groups by;
columns not consumed by the analysis functions are omitted. -/
structure Row where
  purchase_order_id : Option String
  product_id : Option String
  supplier_id : Option String
  department : Option String
  description : Option String
  quantity : Option ℚ
  unit_price : Option ℚ
  net_value : Option ℚ
  created_month : Nat
deriving DecidableEq

/-- Worker for `uniq`: keeps the values not seen yet. -/
def uniqGo {α : Type} [DecidableEq α] (seen : List α) : List α → List α
  | [] => []
  | a :: t => if a ∈ seen then uniqGo seen t else a :: uniqGo (a :: seen) t

/-- Distinct values of a list in first-occurrence order (the distinct
group keys of a pandas `groupby`). -/
def uniq {α : Type} [DecidableEq α] (l : List α) : List α := uniqGo [] l

/-- pandas `Series.sum()` over a measure column: NaN values are skipped,
an empty (or all-NaN) column sums to 0. -/
def sumO (l : List (Option ℚ)) : ℚ := (l.filterMap id).sum

/-- pandas `Series.mean()`: NaN skipped; NaN when no value is present. -/
def meanO (l : List (Option ℚ)) : Option ℚ :=
  match l.filterMap id with
  | [] => none
  | v :: vs => some ((v :: vs).sum / (v :: vs).length)

/-- pandas `Series.min()`: NaN skipped; NaN when no value is present. -/
def minO (l : List (Option ℚ)) : Option ℚ :=
  match l.filterMap id with
  | [] => none
  | v :: vs => some (vs.foldl min v)

/-- pandas `Series.nunique()`: number of distinct non-null values. -/
def nuniq {α : Type} [DecidableEq α] (l : List (Option α)) : Nat :=
  (uniq (l.filterMap id)).length

/-- Float carrier for the places where the engine's float arithmetic can
leave ℚ: `nan` is NaN, `pinf`/`ninf` are ±inf. -/
inductive FV (α : Type) where
  | num (x : α)
  | nan
  | pinf
  | ninf
deriving DecidableEq

/-- IEEE-754 division as performed by numpy on the engine's columns:
x/0 is ±inf by the sign of x, 0/0 is NaN, NaN propagates. -/
def FV.div {α : Type} [LinearOrderedField α] : FV α → FV α → FV α
  | FV.num a, FV.num b =>
      if b = 0 then (if a = 0 then FV.nan else if 0 < a then FV.pinf else FV.ninf)
      else FV.num (a / b)
  | FV.nan, _ => FV.nan
  | _, FV.nan => FV.nan
  | FV.pinf, FV.pinf => FV.nan
  | FV.pinf, FV.ninf => FV.nan
  | FV.ninf, FV.pinf => FV.nan
  | FV.ninf, FV.ninf => FV.nan
  | FV.pinf, FV.num b => if b < 0 then FV.ninf else FV.pinf
  | FV.ninf, FV.num b => if b < 0 then FV.pinf else FV.ninf
  | FV.num _, FV.pinf => FV.num 0
  | FV.num _, FV.ninf => FV.num 0

/-- Multiplication by the positive literal 100 (`* 100` on a float column). -/
def FV.mul100 {α : Type} [LinearOrderedField α] : FV α → FV α
  | FV.num x => FV.num (x * 100)
  | FV.nan => FV.nan
  | FV.pinf => FV.pinf
  | FV.ninf => FV.ninf

/-- pandas `fillna(0)`: replaces NaN (and only NaN — ±inf pass through). -/
def FV.fillna0 {α : Type} [LinearOrderedField α] : FV α → FV α
  | FV.nan => FV.num 0
  | v => v

/-- A float value compared against a rational bound, as numpy `<=` does:
NaN compares False, -inf ≤ c is True, +inf ≤ c is False. -/
def FV.leB {α : Type} [LinearOrderedField α] : FV α → α → Bool
  | FV.num x, c => decide (x ≤ c)
  | FV.nan, _ => false
  | FV.pinf, _ => false
  | FV.ninf, _ => true

-- ------------------------------------------------------------------
-- Number formatting (the f-strings of calculate_kpis).
-- ------------------------------------------------------------------

/-- Insert a thousands separator every three digits; the input is the
digit list in reverse (least significant first). -/
def commasRev : List Char → List Char
  | c1 :: c2 :: c3 :: c4 :: rest => c1 :: c2 :: c3 :: ',' :: commasRev (c4 :: rest)
  | l => l

/-- Python `f"{n:,}"` for a natural number. -/
def fmtNatComma (n : Nat) : String :=
  String.mk (commasRev (toString n).data.reverse).reverse

/-- Round a rational to the nearest integer, halves up: `⌊q + 1/2⌋`. -/
def qround (q : ℚ) : ℤ := ⌊q + 1 / 2⌋

/-- Two decimal digits with a leading zero. -/
def pad2 (k : Nat) : String :=
  if k < 10 then "0" ++ toString k else toString k

/-- Python `f"{q:,.2f}"` (`commas := true`) or `f"{q:.2f}"`
(`commas := false`) on an exact rational: round to two decimals and
render sign, integer part and a two-digit fraction.  (Python rounds the
IEEE double half-to-even; on the exactly representable values used by the
claims the two agree.) -/
def fmtFixed2 (commas : Bool) (q : ℚ) : String :=
  let n : ℤ := qround (q * 100)
  let m := n.natAbs
  let ip := if commas then fmtNatComma (m / 100) else toString (m / 100)
  (if n < 0 then "-" else "") ++ ip ++ "." ++ pad2 (m % 100)

/-- Python `f"{x:.2f}"` on the float fragmentation rate: NaN prints as
`nan`, ±inf as `inf`/`-inf`. -/
def fmtRate : FV ℚ → String
  | FV.num q => fmtFixed2 false q
  | FV.nan => "nan"
  | FV.pinf => "inf"
  | FV.ninf => "-inf"

-- ------------------------------------------------------------------
-- calculate_kpis (analyze_data.py lines 30-47)
-- ------------------------------------------------------------------

/-- Rows of the product group `p` (`df.groupby('product_id')` drops the
rows whose `product_id` is NaN). -/
def productRows (df : List Row) (p : String) : List Row :=
  df.filter (fun r => r.product_id = some p)

/-- The distinct non-null product ids — the group keys of
`df.groupby('product_id')`. -/
def productKeys (df : List Row) : List String :=
  uniq (df.filterMap Row.product_id)

/-- `df.groupby('product_id')['unit_price'].min()` for product `p`. -/
def minPrice (df : List Row) (p : String) : Option ℚ :=
  minO ((productRows df p).map Row.unit_price)

/-- The per-row saving term after `pd.merge(df, saving_potential_df,
on='product_id')`: the inner merge drops rows with a null `product_id`
(the right table has no null key); on a merged row the float product
`(unit_price - min_price) * quantity` is NaN as soon as one factor is. -/
def savingTerm (df : List Row) (r : Row) : Option (Option ℚ) :=
  match r.product_id with
  | none => none
  | some p =>
      some (do
        let pr ← r.unit_price
        let q ← r.quantity
        let m ← minPrice df p
        pure ((pr - m) * q))

/-- `((df_merged['unit_price'] - df_merged['min_price']) *
df_merged['quantity']).sum()` (line 35). -/
def saving_potential (df : List Row) : ℚ :=
  sumO (df.filterMap (savingTerm df))

/-- `supplier_counts = df.groupby('product_id')['supplier_id'].nunique()`;
`fragmented_skus = (supplier_counts > 1).sum()` (lines 36-37). -/
def fragmented_skus (df : List Row) : Nat :=
  ((productKeys df).filter
    (fun p => 1 < nuniq ((productRows df p).map Row.supplier_id))).length

/-- The float `fragmented_skus / df['product_id'].nunique() * 100`
(line 45): a plain numpy division, so 0/0 is NaN, not an exception. -/
def fragmentationRate (df : List Row) : FV ℚ :=
  FV.mul100 (FV.div (FV.num (fragmented_skus df : ℚ))
    (FV.num (nuniq (df.map Row.product_id) : ℚ)))

/-- `calculate_kpis` (lines 30-47): the ordered label/formatted-value
list.  The function is total: every arithmetic step is defined (the
zero-product division yields the NaN sentinel, never an exception). -/
def calculate_kpis (df : List Row) : List (String × String) :=
  [ ("Total Spend", "$" ++ fmtFixed2 true (sumO (df.map Row.net_value))),
    ("Potential Savings", "$" ++ fmtFixed2 true (saving_potential df)),
    ("Total Purchase Orders", fmtNatComma (nuniq (df.map Row.purchase_order_id))),
    ("Total Active Suppliers", fmtNatComma (nuniq (df.map Row.supplier_id))),
    ("Fragmented SKUs", fmtNatComma (fragmented_skus df)),
    ("Fragmentation Rate (%)", fmtRate (fragmentationRate df) ++ "%") ]

-- ------------------------------------------------------------------
-- calculate_sku_analysis / filter_sku_analysis (lines 49-72)
-- ------------------------------------------------------------------

/-- The compound grouping key of
`df.groupby(['department', 'product_id', 'description', 'supplier_id'])`;
`none` when any component is null (pandas `dropna=True` then drops the row). -/
def key4 (r : Row) : Option (String × String × String × String) := do
  let d ← r.department
  let p ← r.product_id
  let ds ← r.description
  let s ← r.supplier_id
  pure (d, p, ds, s)

/-- The distinct group keys of the four-column groupby. -/
def groupKeys4 (df : List Row) : List (String × String × String × String) :=
  uniq (df.filterMap key4)

/-- The rows of one four-column group. -/
def groupRows4 (df : List Row) (k : String × String × String × String) : List Row :=
  df.filter (fun r => key4 r = some k)

/-- One row of the SKU analysis table. -/
structure SkuRow where
  department : String
  product_id : String
  description : String
  supplier_id : String
  quantity_purchased : ℚ
  avg_price_paid : Option ℚ
  best_available_price : Option ℚ
  cost_above_best_price : Option ℚ
deriving DecidableEq

/-- Step 1 of `calculate_sku_analysis` (lines 51-54): the grouped
aggregation with `quantity_purchased = sum(quantity)` and
`avg_price_paid = mean(unit_price)`, one output row per group key. -/
def skuAgg (df : List Row) :
    List ((String × String × String × String) × ℚ × Option ℚ) :=
  (groupKeys4 df).map (fun k =>
    (k, sumO ((groupRows4 df k).map Row.quantity),
        meanO ((groupRows4 df k).map Row.unit_price)))

/-- `calculate_sku_analysis` (lines 49-58): step 1, then the merge of the
per-product `best_available_price` (`groupby('product_id').min()`, over
the whole table), then `cost_above_best_price = (avg_price_paid -
best_available_price) * quantity_purchased` (NaN when a factor is NaN). -/
def calculate_sku_analysis (df : List Row) : List SkuRow :=
  (skuAgg df).map (fun x =>
    match x with
    | ((d, p, ds, s), qty, avg) =>
        let best := minPrice df p
        { department := d, product_id := p, description := ds, supplier_id := s,
          quantity_purchased := qty, avg_price_paid := avg,
          best_available_price := best,
          cost_above_best_price := do
            let a ← avg
            let b ← best
            pure ((a - b) * qty) })

/-- `filter_sku_analysis` (lines 60-72): all-default parameters return
the table untouched; otherwise department membership (if non-empty),
supplier membership (if non-empty) and the always-applied
`cost_above_best_price >= cost_threshold` comparison, which — as numpy
`>=` — rejects a NaN cost. -/
def filter_sku_analysis (df : List SkuRow) (departments suppliers : List String)
    (cost_threshold : ℚ) : List SkuRow :=
  if departments = [] ∧ suppliers = [] ∧ cost_threshold = 0 then df
  else
    let f1 := if departments ≠ [] then df.filter (fun r => r.department ∈ departments) else df
    let f2 := if suppliers ≠ [] then f1.filter (fun r => r.supplier_id ∈ suppliers) else f1
    f2.filter (fun r =>
      match r.cost_above_best_price with
      | some c => cost_threshold ≤ c
      | none => False)

-- ------------------------------------------------------------------
-- calculate_critical_suppliers (lines 76-92)
-- ------------------------------------------------------------------

/-- The compound key of `df.groupby(['product_id', 'description'])`. -/
def key2 (r : Row) : Option (String × String) := do
  let p ← r.product_id
  let d ← r.description
  pure (p, d)

/-- The distinct group keys of the two-column groupby. -/
def groupKeys2 (df : List Row) : List (String × String) :=
  uniq (df.filterMap key2)

/-- The rows of one two-column group. -/
def groupRows2 (df : List Row) (k : String × String) : List Row :=
  df.filter (fun r => key2 r = some k)

/-- One row of the per-(product, description) spend summary. -/
structure SummaryRow where
  product_id : String
  description : String
  total_net_value : ℚ
  supplier_count : Nat
deriving DecidableEq

/-- Lines 78-81 before the sort: `total_net_value = sum(net_value)` and
`supplier_count = nunique(supplier_id)` per (product, description). -/
def skuSummary (df : List Row) : List SummaryRow :=
  (groupKeys2 df).map (fun k =>
    { product_id := k.1, description := k.2,
      total_net_value := sumO ((groupRows2 df k).map Row.net_value),
      supplier_count := nuniq ((groupRows2 df k).map Row.supplier_id) })

/-- Stable insertion of `a` in front of the first element with a strictly
smaller key — the building block of a stable descending sort. -/
def insertDesc {α : Type} (f : α → ℚ) (a : α) : List α → List α
  | [] => [a]
  | b :: t => if f b < f a then a :: b :: t else b :: insertDesc f a t

/-- `sort_values(..., ascending=False)`: stable descending sort by key `f`. -/
def sortDesc {α : Type} (f : α → ℚ) : List α → List α
  | [] => []
  | a :: t => insertDesc f a (sortDesc f t)

/-- `sku_summary.sort_values('total_net_value', ascending=False)` (line 81). -/
def skuSummarySorted (df : List Row) : List SummaryRow :=
  sortDesc (fun r => r.total_net_value) (skuSummary df)

/-- `sku_summary['total_net_value'].sum()` (line 83). -/
def grandTotal (df : List Row) : ℚ :=
  ((skuSummarySorted df).map (fun r => r.total_net_value)).sum

/-- The rows paired with the running `cumsum()` of `total_net_value`,
threaded from the accumulator `acc`. -/
def withCumsum (acc : ℚ) : List SummaryRow → List (SummaryRow × ℚ)
  | [] => []
  | r :: t => (r, acc + r.total_net_value) :: withCumsum (acc + r.total_net_value) t

/-- Line 83: each sorted summary row with its
`cum_spend_pct = cumsum / total * 100` float column. -/
def cumPctPairs (df : List Row) : List (SummaryRow × FV ℚ) :=
  (withCumsum 0 (skuSummarySorted df)).map (fun rc =>
    (rc.1, FV.mul100 (FV.div (FV.num rc.2) (FV.num (grandTotal df)))))

/-- The `cum_spend_pct` column itself. -/
def cumPctList (df : List Row) : List (FV ℚ) :=
  (cumPctPairs df).map (fun rc => rc.2)

/-- `top_spend_skus = sku_summary[sku_summary['cum_spend_pct'] <=
80]['product_id']` (line 85). -/
def topSpendIds (df : List Row) : List String :=
  (cumPctPairs df).filterMap (fun rc =>
    if FV.leB rc.2 80 then some rc.1.product_id else none)

/-- Lines 86-87: the top-spend single-sourced summary rows. -/
def criticalRows (df : List Row) : List SummaryRow :=
  (skuSummarySorted df).filter (fun r =>
    r.product_id ∈ topSpendIds df ∧ r.supplier_count = 1)

/-- `df[['product_id', 'supplier_id']].drop_duplicates()` (line 89). -/
def supplierPairs (df : List Row) : List (Option String × Option String) :=
  uniq (df.map (fun r => (r.product_id, r.supplier_id)))

/-- One output row of `calculate_critical_suppliers`. -/
structure CriticalRow where
  product_id : String
  description : String
  supplier_id : Option String
  total_net_value : ℚ
deriving DecidableEq

/-- `calculate_critical_suppliers` (lines 76-92): the critical rows inner
merged with the distinct (product, supplier) pairs, final columns sorted
by total spend descending. -/
def calculate_critical_suppliers (df : List Row) : List CriticalRow :=
  sortDesc (fun r => r.total_net_value)
    ((criticalRows df).flatMap (fun r =>
      (supplierPairs df).filterMap (fun ps =>
        if ps.1 = some r.product_id then
          some { product_id := r.product_id, description := r.description,
                 supplier_id := ps.2, total_net_value := r.total_net_value }
        else none)))

-- ------------------------------------------------------------------
-- calculate_price_volatility (lines 94-98) and the JSON boundary
-- (purchase_orders.py lines 28-30)
-- ------------------------------------------------------------------

/-- The non-null unit prices of one (product, description) group — the
values pandas' skipna `mean`/`std` aggregate over. -/
def presentPrices (df : List Row) (k : String × String) : List ℚ :=
  (groupRows2 df k).filterMap Row.unit_price

/-- One row of the volatility table: the `mean`, `std` and `CV_%`
columns, as floats (the sample standard deviation is a real square
root). -/
structure VolRow where
  product_id : String
  description : String
  mean : FV ℝ
  std : FV ℝ
  cv : FV ℝ

/-- The group's rational unit prices viewed as reals (the engine's
float column). -/
noncomputable def ratsToReals (l : List ℚ) : List ℝ :=
  l.map (Rat.cast : ℚ → ℝ)

/-- pandas `mean` of the group's unit prices: NaN when no value. -/
noncomputable def priceMean (l : List ℚ) : FV ℝ :=
  if l.length = 0 then FV.nan
  else FV.num ((ratsToReals l).sum / l.length)

/-- pandas `std` (ddof = 1): NaN for fewer than two values, otherwise
the square root of the sample variance. -/
noncomputable def priceStd (l : List ℚ) : FV ℝ :=
  if l.length < 2 then FV.nan
  else
    FV.num (Real.sqrt
      (((ratsToReals l).map
          (fun x => (x - (ratsToReals l).sum / l.length) ^ 2)).sum
        / (l.length - 1)))

/-- Line 96-97: one aggregated row per (product, description) with
`CV_% = (std / mean) * 100` in float arithmetic. -/
noncomputable def priceStats (df : List Row) : List VolRow :=
  (groupKeys2 df).map (fun k =>
    { product_id := k.1, description := k.2,
      mean := priceMean (presentPrices df k),
      std := priceStd (presentPrices df k),
      cv := FV.mul100 (FV.div (priceStd (presentPrices df k))
              (priceMean (presentPrices df k))) })

/-- `fillna(0)` applied to every float cell of a volatility row. -/
noncomputable def VolRow.fillna0 (r : VolRow) : VolRow :=
  { r with mean := r.mean.fillna0, std := r.std.fillna0, cv := r.cv.fillna0 }

/-- `calculate_price_volatility` (lines 94-98):
`... .sort_values('CV_%', ascending=False).fillna(0)`.  The sort only
permutes the rows (every property below is per-row), so the rows are
kept in group-key order. -/
noncomputable def calculate_price_volatility (df : List Row) : List VolRow :=
  (priceStats df).map VolRow.fillna0

/-- `to_json_safe_dict` (purchase_orders.py lines 28-30) on one numeric
cell: `df.replace({np.nan: None, pd.NaT: None})` maps NaN — and only
NaN — to the JSON `null` sentinel; finite numbers and ±inf pass through. -/
def to_json_safe {α : Type} : FV α → Option (FV α)
  | FV.nan => none
  | v => some v

-- ------------------------------------------------------------------
-- calculate_demand_forecast (lines 100-122)
-- ------------------------------------------------------------------

/-- Stable ascending insertion sort on naturals (the chronological order
of the monthly buckets produced by the `created_date` Grouper). -/
def insertAsc (a : Nat) : List Nat → List Nat
  | [] => [a]
  | b :: t => if a < b then a :: b :: t else b :: insertAsc a t

/-- Ascending sort. -/
def sortAsc : List Nat → List Nat
  | [] => []
  | a :: t => insertAsc a (sortAsc t)

/-- `df.groupby('product_id')['quantity'].sum()` for product `sku`. -/
def totalQty (df : List Row) (sku : String) : ℚ :=
  sumO ((productRows df sku).map Row.quantity)

/-- `nlargest(5)` on the per-product quantity totals: the five products
of largest total (stable descending selection). -/
def top5 (df : List Row) : List String :=
  (sortDesc (totalQty df) (productKeys df)).take 5

/-- The distinct calendar-month buckets in which product `sku` has rows,
chronologically (months with no row are simply absent, not zero-filled). -/
def productMonths (df : List Row) (sku : String) : List Nat :=
  sortAsc (uniq ((productRows df sku).map Row.created_month))

/-- Line 105: the per-product monthly quantity series
`groupby(['product_id', pd.Grouper(key='created_date', freq='M')])
['quantity'].sum()`, as (month, quantity) points in chronological order. -/
def monthlyHistory (df : List Row) (sku : String) : List (Nat × ℚ) :=
  (productMonths df sku).map (fun m =>
    (m, sumO (((productRows df sku).filter
          (fun r => r.created_month = m)).map Row.quantity)))

/-- The last observed month of a series. -/
def maxMonth (h : List (Nat × ℚ)) : Nat :=
  (h.map Prod.fst).foldl max 0

/-- A `Forecast_Date` cell.  The series index handed to statsmodels is a
DatetimeIndex with no frequency set: when the frequency can be inferred,
forecasts are dated (`month`); when it cannot, statsmodels falls back to
an integer RangeIndex and the forecast index is plain positions
(`pos`). -/
inductive FDate where
  | month (m : Nat)
  | pos (i : Nat)
deriving DecidableEq

/-- Whether every consecutive step of the sorted month list equals `d`. -/
def constStep (d : Nat) : List Nat → Bool
  | a :: b :: t => b = a + d && constStep d (b :: t)
  | _ => true

/-- `pandas.infer_freq` on the observed month buckets (sorted
ascending, at least 3 points): the constant month step when one exists,
`none` otherwise. -/
def inferFreq : List Nat → Option Nat
  | m1 :: m2 :: m3 :: rest =>
      let d := m2 - m1
      if 0 < d ∧ constStep d (m1 :: m2 :: m3 :: rest) then some d else none
  | _ => none

/-- One forecast output row. -/
structure ForecastRow where
  product_id : String
  forecast_date : FDate
  forecast_quantity : ℚ
deriving DecidableEq

/-- The loop body of `calculate_demand_forecast` (lines 108-116) for one
selected product.  The `SimpleExpSmoothing(...).fit()` of statsmodels is
external library code; its estimated level is abstracted as the
parameter `fit` (a flat, level-only forecast repeats one value).
`model.forecast(3)`'s index follows statsmodels' date handling: the
monthly series is passed with an unset index frequency, so when a
constant month step `d` is inferable the three forecasts are dated
`d, 2d, 3d` months after the last observed month, and when no constant
step exists the index is ignored and the forecasts carry the integer
positions `n, n+1, n+2` after the `n` observations.  A series of 2 or
fewer points is skipped with no row (`if len(sku_history) > 2`,
line 111). -/
def forecastRowsFor (fit : List ℚ → ℚ) (df : List Row) (sku : String) :
    List ForecastRow :=
  let h := monthlyHistory df sku
  if 2 < h.length then
    match inferFreq (h.map Prod.fst) with
    | some d =>
        [1, 2, 3].map (fun k =>
          { product_id := sku, forecast_date := FDate.month (maxMonth h + k * d),
            forecast_quantity := fit (h.map Prod.snd) })
    | none =>
        [1, 2, 3].map (fun k =>
          { product_id := sku, forecast_date := FDate.pos (h.length - 1 + k),
            forecast_quantity := fit (h.map Prod.snd) })
  else []

/-- `calculate_demand_forecast` (lines 100-122): the per-product
forecasts concatenated over the top-5 products, in processing order. -/
def calculate_demand_forecast (fit : List ℚ → ℚ) (df : List Row) :
    List ForecastRow :=
  (top5 df).flatMap (forecastRowsFor fit df)

-- ------------------------------------------------------------------
-- Spec-side definitions used by refinement statements
-- ------------------------------------------------------------------

/-- The spec's Potential-Savings row term: "(its `unit_price` − the
minimum `unit_price` observed anywhere for that `product_id`) × its
`quantity`" (spec §4.2), missing when a needed value is missing. -/
def specSavingTerm (df : List Row) (r : Row) : Option ℚ :=
  match r.product_id with
  | none => none
  | some p => do
      let pr ← r.unit_price
      let q ← r.quantity
      let m ← minPrice df p
      pure ((pr - m) * q)

/-- The spec's Potential Savings: the row terms "summed over all rows". -/
def specSavings (df : List Row) : ℚ :=
  sumO (df.map (specSavingTerm df))

-- ------------------------------------------------------------------
-- Fixtures
-- ------------------------------------------------------------------

/-- The spec §8 KPI example: product `P1` bought at 10 and 20 (quantity 1
each) from two different suppliers. -/
def exKpi : List Row :=
  [ { purchase_order_id := some "PO1", product_id := some "P1",
      supplier_id := some "S1", department := some "D", description := some "W",
      quantity := some 1, unit_price := some 10, net_value := some 10,
      created_month := 0 },
    { purchase_order_id := some "PO2", product_id := some "P1",
      supplier_id := some "S2", department := some "D", description := some "W",
      quantity := some 1, unit_price := some 20, net_value := some 20,
      created_month := 0 } ]

-- ------------------------------------------------------------------
-- Small list lemmas
-- ------------------------------------------------------------------

theorem filterMap_id_map {α β : Type} (f : α → Option β) (l : List α) :
    (l.map f).filterMap id = l.filterMap f := by
  induction l with
  | nil => rfl
  | cons a t ih => cases h : f a <;> simp [h, ih]

/-- `nunique` of a column equals the number of distinct group keys of a
groupby on that column. -/
theorem nuniq_product_eq_length_productKeys (df : List Row) :
    nuniq (df.map Row.product_id) = (productKeys df).length := by
  simp [nuniq, productKeys, filterMap_id_map]

-- ------------------------------------------------------------------
-- C2: zero products — the fragmentation rate is the NaN sentinel,
-- with no exception
-- ------------------------------------------------------------------

/-- C2: on every table with zero distinct `product_id` values,
`calculate_kpis` is defined (the division is the total float division,
never an exception) and reports the Fragmentation Rate as the formatted
NaN sentinel `"nan%"`. -/
theorem kpis_rate_nan_on_zero_products (df : List Row)
    (h : nuniq (df.map Row.product_id) = 0) :
    (calculate_kpis df)[5]? = some ("Fragmentation Rate (%)", "nan%") := by
  have hkeys : productKeys df = [] := by
    have hlen : (productKeys df).length = 0 := by
      rw [← nuniq_product_eq_length_productKeys]; exact h
    exact List.length_eq_zero.mp hlen
  have hfrag : fragmented_skus df = 0 := by
    simp [fragmented_skus, hkeys]
  simp [calculate_kpis, fragmentationRate, hfrag, h, FV.div, FV.mul100, fmtRate]

/-- Witness for C2 at the empty table. -/
theorem kpis_rate_nan_on_zero_products_witness :
    (calculate_kpis ([] : List Row))[5]? =
      some ("Fragmentation Rate (%)", "nan%") :=
  kpis_rate_nan_on_zero_products [] (by decide)

-- ------------------------------------------------------------------
-- C5: the Potential-Savings formula and the two-row KPI example
-- ------------------------------------------------------------------

/-- C5: `calculate_kpis` computes Potential Savings as the spec's
per-row sum (for tables whose rows all carry a product id — the merge
pairs each row with its product's global minimum price exactly once),
and on the two-row `P1` example the KPIs are Total Spend $30.00,
Potential Savings $10.00, Fragmented SKUs 1, Fragmentation Rate
100.00%. -/
theorem kpis_savings_formula_and_example :
    (∀ df : List Row, (∀ r ∈ df, r.product_id ≠ none) →
      saving_potential df = specSavings df) ∧
    calculate_kpis exKpi =
      [ ("Total Spend", "$30.00"),
        ("Potential Savings", "$10.00"),
        ("Total Purchase Orders", "2"),
        ("Total Active Suppliers", "2"),
        ("Fragmented SKUs", "1"),
        ("Fragmentation Rate (%)", "100.00%") ] := by
  constructor
  · intro df h
    have hlist : ∀ l : List Row, (∀ r ∈ l, r.product_id ≠ none) →
        l.filterMap (savingTerm df) = l.map (specSavingTerm df) := by
      intro l
      induction l with
      | nil => intro _; rfl
      | cons a t ih =>
          intro hl
          have ha := hl a (List.mem_cons_self a t)
          have hterm : savingTerm df a = some (specSavingTerm df a) := by
            cases hp : a.product_id with
            | none => exact absurd hp ha
            | some p => simp [savingTerm, specSavingTerm, hp]
          simp [List.filterMap_cons, hterm,
            ih (fun r hr => hl r (List.mem_cons_of_mem a hr))]
    simp [saving_potential, specSavings, hlist df h]
  · norm_num +decide [calculate_kpis, exKpi, sumO, saving_potential, savingTerm,
      minPrice, minO, productRows, productKeys, uniq, uniqGo, fragmented_skus,
      nuniq, fragmentationRate, FV.div, FV.mul100, fmtRate, fmtFixed2, qround,
      fmtNatComma, commasRev, pad2, specSavings, specSavingTerm,
      List.filterMap_cons, List.filterMap_nil, Option.bind, List.filter_cons,
      Nat.digitChar, String.instAppend, String.append, toString, Nat.repr]

/-- Witness for C5: the savings formula instantiated on the example
table. -/
theorem kpis_savings_formula_witness :
    saving_potential exKpi = specSavings exKpi :=
  kpis_savings_formula_and_example.1 exKpi (by decide)

-- ------------------------------------------------------------------
-- C10: the always-applied threshold comparison and NaN costs
-- ------------------------------------------------------------------

/-- C10: a SKU-analysis row whose `cost_above_best_price` is the missing
sentinel is returned by `filter_sku_analysis` with all filters at their
defaults (the early-return branch), but is omitted as soon as any filter
is active — in particular any non-empty department or supplier
membership filter with the threshold still 0 — because the always-applied
`>= cost_threshold` comparison rejects the missing sentinel. -/
theorem filter_retains_then_drops_nan_cost (df : List SkuRow) (r : SkuRow)
    (deps sups : List String) (t : ℚ)
    (hr : r ∈ df) (hc : r.cost_above_best_price = none)
    (hact : ¬(deps = [] ∧ sups = [] ∧ t = 0)) :
    r ∈ filter_sku_analysis df [] [] 0 ∧
    r ∉ filter_sku_analysis df deps sups t := by
  constructor
  · simpa [filter_sku_analysis] using hr
  · intro hmem
    rw [filter_sku_analysis, if_neg hact] at hmem
    have hpred := (List.mem_filter.mp hmem).2
    rw [hc] at hpred
    simp at hpred

/-- Witness for C10: a one-row table whose single row has a NaN cost. -/
theorem filter_retains_then_drops_nan_cost_witness :
    ({ department := "D", product_id := "P", description := "X",
       supplier_id := "S", quantity_purchased := 1, avg_price_paid := none,
       best_available_price := none, cost_above_best_price := none } : SkuRow) ∈
      filter_sku_analysis
        [{ department := "D", product_id := "P", description := "X",
           supplier_id := "S", quantity_purchased := 1, avg_price_paid := none,
           best_available_price := none, cost_above_best_price := none }] [] [] 0 ∧
    ({ department := "D", product_id := "P", description := "X",
       supplier_id := "S", quantity_purchased := 1, avg_price_paid := none,
       best_available_price := none, cost_above_best_price := none } : SkuRow) ∉
      filter_sku_analysis
        [{ department := "D", product_id := "P", description := "X",
           supplier_id := "S", quantity_purchased := 1, avg_price_paid := none,
           best_available_price := none, cost_above_best_price := none }] ["D"] [] 0 :=
  filter_retains_then_drops_nan_cost _ _ _ _ _
    (List.mem_singleton.mpr rfl) rfl (by simp)

-- ------------------------------------------------------------------
-- C4: null grouping keys are dropped, not kept as their own group
-- ------------------------------------------------------------------

theorem filterMap_filter_isSome {α K : Type} (key : α → Option K) (l : List α) :
    (l.filter (fun r => (key r).isSome)).filterMap key = l.filterMap key := by
  induction l with
  | nil => rfl
  | cons a t ih => cases h : key a <;> simp [List.filter_cons, h, ih]

theorem filter_keyEq_isSome {α K : Type} [DecidableEq K] (key : α → Option K)
    (l : List α) (k : K) :
    (l.filter (fun r => (key r).isSome)).filter (fun r => key r = some k) =
      l.filter (fun r => key r = some k) := by
  induction l with
  | nil => rfl
  | cons a t ih => cases h : key a <;> simp [List.filter_cons, h, ih]

/-- A one-row table whose row has a null `department` grouping key. -/
def exNullKeyRow : Row :=
  { purchase_order_id := some "PO1", product_id := some "P",
    supplier_id := some "S", department := none, description := some "X",
    quantity := some 1, unit_price := some 5, net_value := some 5,
    created_month := 0 }

/-- Counterexample to C4 as stated: the SKU analysis of a table whose
only row has a null `department` grouping key is empty — the row is
dropped by the groupby (pandas `dropna=True`), it does not form its own
distinct group. -/
theorem sku_analysis_drops_null_key_row :
    calculate_sku_analysis [exNullKeyRow] = [] := by rfl

/-- C4 amended: rows with a null grouping key are dropped by the
grouping stages, not kept as a distinct group: removing them changes
neither the SKU-analysis aggregation nor the risk summary, and such a
row belongs to no group of the four-column groupby. -/
theorem groupby_drops_null_key_rows (df : List Row) :
    skuAgg df = skuAgg (df.filter (fun r => (key4 r).isSome)) ∧
    skuSummary df = skuSummary (df.filter (fun r => (key2 r).isSome)) ∧
    ∀ r ∈ df, key4 r = none → ∀ k, r ∉ groupRows4 df k := by
  refine ⟨?_, ?_, ?_⟩
  · simp [skuAgg, groupKeys4, groupRows4, uniq,
      filterMap_filter_isSome key4 df, filter_keyEq_isSome key4 df]
  · simp [skuSummary, groupKeys2, groupRows2, uniq,
      filterMap_filter_isSome key2 df, filter_keyEq_isSome key2 df]
  · intro r _ hnone k hmem
    have hpred := (List.mem_filter.mp hmem).2
    rw [hnone] at hpred
    simp at hpred

/-- Witness for C4 (amended): the null-department row belongs to no
group of its table. -/
theorem groupby_drops_null_key_rows_witness :
    exNullKeyRow ∉ groupRows4 [exNullKeyRow] ("D", "P", "X", "S") :=
  (groupby_drops_null_key_rows [exNullKeyRow]).2.2 exNullKeyRow
    (List.mem_singleton.mpr rfl) rfl ("D", "P", "X", "S")

-- ------------------------------------------------------------------
-- C8: cost_above_best_price and the sign of its factors
-- ------------------------------------------------------------------

theorem foldl_min_le (vs : List ℚ) : ∀ v : ℚ, ∀ x ∈ v :: vs, vs.foldl min v ≤ x := by
  induction vs with
  | nil =>
      intro v x hx
      rw [List.mem_singleton] at hx
      rw [hx]
      exact le_rfl
  | cons w t ih =>
      intro v x hx
      simp only [List.foldl_cons]
      have hmin : t.foldl min (min v w) ≤ min v w :=
        ih (min v w) (min v w) (List.mem_cons_self _ _)
      rcases List.mem_cons.mp hx with h1 | hx1
      · rw [h1]
        exact le_trans hmin (min_le_left _ _)
      rcases List.mem_cons.mp hx1 with h2 | hx2
      · rw [h2]
        exact le_trans hmin (min_le_right _ _)
      · exact ih (min v w) x (List.mem_cons_of_mem _ hx2)

/-- `minO` bounds every present value from below. -/
theorem minO_le {l : List (Option ℚ)} {m x : ℚ}
    (hm : minO l = some m) (hx : x ∈ l.filterMap id) : m ≤ x := by
  rw [minO] at hm
  cases hv : l.filterMap id with
  | nil => rw [hv] at hm; simp at hm
  | cons v vs =>
      rw [hv] at hm hx
      have : vs.foldl min v = m := by simpa using hm
      exact this ▸ foldl_min_le vs v x hx

theorem mul_length_le_sum {b : ℚ} : ∀ L : List ℚ, (∀ x ∈ L, b ≤ x) →
    b * L.length ≤ L.sum := by
  intro L
  induction L with
  | nil => intro _; simp
  | cons v vs ih =>
      intro h
      have hv := h v (List.mem_cons_self v vs)
      have hvs := ih (fun x hx => h x (List.mem_cons_of_mem v hx))
      have hsplit : b * (((v :: vs).length : ℕ) : ℚ) = b + b * vs.length := by
        push_cast [List.length_cons]
        ring
      rw [hsplit, List.sum_cons]
      exact add_le_add hv hvs

/-- `meanO` dominates any lower bound of the present values. -/
theorem le_meanO {l : List (Option ℚ)} {a b : ℚ}
    (ha : meanO l = some a) (hb : ∀ x ∈ l.filterMap id, b ≤ x) : b ≤ a := by
  rw [meanO] at ha
  cases hv : l.filterMap id with
  | nil => rw [hv] at ha; simp at ha
  | cons v vs =>
      rw [hv] at ha hb
      have hsum : b * ((v :: vs).length : ℚ) ≤ (v :: vs).sum :=
        mul_length_le_sum (v :: vs) hb
      have hlen : (0 : ℚ) < ((v :: vs).length : ℚ) := by
        push_cast [List.length_cons]
        positivity
      have ha' : (v :: vs).sum / ((v :: vs).length : ℚ) = a := by simpa using ha
      rw [← ha', le_div_iff₀ hlen]
      exact hsum

theorem sumO_nonneg {l : List (Option ℚ)}
    (h : ∀ o ∈ l, 0 ≤ o.getD 0) : 0 ≤ sumO l := by
  induction l with
  | nil => simp [sumO]
  | cons o t ih =>
      have ht := ih (fun x hx => h x (List.mem_cons_of_mem o hx))
      have ho := h o (List.mem_cons_self o t)
      cases o with
      | none => simpa [sumO, List.filterMap_cons] using ht
      | some q =>
          have : sumO (some q :: t) = q + sumO t := by
            simp [sumO, List.filterMap_cons]
          rw [this]
          simpa using add_nonneg ho ht

theorem key4_product_id {r : Row} {d p ds s : String}
    (h : key4 r = some (d, p, ds, s)) : r.product_id = some p := by
  cases hd : r.department <;> cases hp : r.product_id <;>
    cases hds : r.description <;> cases hs : r.supplier_id <;>
      simp [key4, hd, hp, hds, hs] at h <;> simp [h]

/-- Every present unit price of a four-column group is a present unit
price of the group's product across the whole table. -/
theorem group_price_mem_product_prices {df : List Row}
    {d p ds s : String} {x : ℚ}
    (hx : x ∈ (groupRows4 df (d, p, ds, s)).filterMap Row.unit_price) :
    x ∈ ((productRows df p).map Row.unit_price).filterMap id := by
  rw [filterMap_id_map]
  rcases List.mem_filterMap.mp hx with ⟨r, hr, hpr⟩
  have hmem := List.mem_filter.mp hr
  have hk : key4 r = some (d, p, ds, s) := by simpa using hmem.2
  refine List.mem_filterMap.mpr ⟨r, ?_, hpr⟩
  refine List.mem_filter.mpr ⟨hmem.1, ?_⟩
  simpa using key4_product_id hk

/-- The table that refutes C8 as stated: a group with a negative summed
quantity bought above the product's best price. -/
def exNegQty : List Row :=
  [ { purchase_order_id := some "PO1", product_id := some "P",
      supplier_id := some "S1", department := some "D", description := some "X",
      quantity := some (-1), unit_price := some 20, net_value := some (-20),
      created_month := 0 },
    { purchase_order_id := some "PO2", product_id := some "P",
      supplier_id := some "S2", department := some "D", description := some "X",
      quantity := some 1, unit_price := some 10, net_value := some 10,
      created_month := 0 } ]

/-- Counterexample to C8 as stated: with a negative `quantity` (which
the input contract does not exclude) `calculate_sku_analysis` emits a
row with `cost_above_best_price = -10 < 0`. -/
theorem sku_cost_above_best_negative :
    (calculate_sku_analysis exNegQty).map
        (fun r => r.cost_above_best_price) = [some (-10), some 0] ∧
      ((-10 : ℚ) < 0) := by
  constructor
  · norm_num +decide [calculate_sku_analysis, skuAgg, groupKeys4, groupRows4,
      key4, exNegQty, uniq, uniqGo, sumO, meanO, minO, minPrice, productRows,
      List.filterMap_cons, List.filter_cons, Option.bind]
  · norm_num

/-- C8 amended: for every table whose (present) quantities are
nonnegative, every SKU-analysis row has a `cost_above_best_price` that
is either the missing sentinel or nonnegative: the group's average paid
price cannot be below the product's global minimum price, and the
group's summed quantity is nonnegative. -/
theorem sku_cost_above_best_nonneg (df : List Row)
    (hq : ∀ r ∈ df, 0 ≤ r.quantity.getD 0) :
    List.Forall (fun row => ∀ c ∈ row.cost_above_best_price, 0 ≤ c)
      (calculate_sku_analysis df) := by
  rw [List.forall_iff_forall_mem]
  intro row hrow c hc
  rcases List.mem_map.mp hrow with ⟨entry, hentry, hrow'⟩
  rcases List.mem_map.mp hentry with ⟨k, hk, hentry'⟩
  rcases k with ⟨d, p, ds, s⟩
  subst hentry'
  subst hrow'
  simp only [Option.mem_def] at hc
  rcases havg : meanO ((groupRows4 df (d, p, ds, s)).map Row.unit_price) with _ | a
  all_goals rcases hbest : minPrice df p with _ | b
  all_goals simp only [havg, hbest, Option.some_bind, Option.none_bind,
    Option.pure_def] at hc
  · exact absurd hc (by simp)
  · exact absurd hc (by simp)
  · exact absurd hc (by simp)
  · -- avg = some a, best = some b
    have hba : b ≤ a := by
      refine le_meanO havg ?_
      intro x hx
      rw [filterMap_id_map] at hx
      exact minO_le hbest (group_price_mem_product_prices hx)
    have hqty : 0 ≤ sumO ((groupRows4 df (d, p, ds, s)).map Row.quantity) := by
      refine sumO_nonneg ?_
      intro o ho
      rcases List.mem_map.mp ho with ⟨r, hr, rfl⟩
      exact hq r (List.mem_filter.mp hr).1
    obtain rfl : (a - b) * sumO ((groupRows4 df (d, p, ds, s)).map Row.quantity) = c := by
      simpa using hc
    exact mul_nonneg (sub_nonneg.mpr hba) hqty

/-- Witness for C8 (amended) at the two-row example table. -/
theorem sku_cost_above_best_nonneg_witness :
    List.Forall (fun row => ∀ c ∈ row.cost_above_best_price, 0 ≤ c)
      (calculate_sku_analysis exKpi) :=
  sku_cost_above_best_nonneg exKpi (by decide)

-- ------------------------------------------------------------------
-- Sorting and cumulative-sum lemmas for the Risk Analyzer
-- ------------------------------------------------------------------

theorem insertDesc_perm {α : Type} (f : α → ℚ) (a : α) (l : List α) :
    List.Perm (insertDesc f a l) (a :: l) := by
  induction l with
  | nil => exact List.Perm.refl _
  | cons b t ih =>
      rw [insertDesc]
      split
      · exact List.Perm.refl _
      · exact (ih.cons b).trans (List.Perm.swap a b t)

theorem sortDesc_perm {α : Type} (f : α → ℚ) (l : List α) :
    List.Perm (sortDesc f l) l := by
  induction l with
  | nil => exact List.Perm.refl _
  | cons a t ih => exact (insertDesc_perm f a (sortDesc f t)).trans (ih.cons a)

theorem mem_sortDesc {α : Type} {f : α → ℚ} {l : List α} {x : α} :
    x ∈ sortDesc f l ↔ x ∈ l :=
  (sortDesc_perm f l).mem_iff

/-- The row components of the running-cumsum pairing. -/
theorem withCumsum_map_fst (acc : ℚ) (l : List SummaryRow) :
    (withCumsum acc l).map Prod.fst = l := by
  induction l generalizing acc with
  | nil => rfl
  | cons r t ih => simp [withCumsum, ih]

/-- Every running cumsum dominates the row's own total when the
accumulator and all totals are nonnegative. -/
theorem withCumsum_self_le (l : List SummaryRow) : ∀ acc : ℚ, 0 ≤ acc →
    (∀ r ∈ l, 0 ≤ r.total_net_value) →
    ∀ rc ∈ withCumsum acc l, rc.1.total_net_value ≤ rc.2 := by
  induction l with
  | nil => intro acc _ _ rc h; simp [withCumsum] at h
  | cons r t ih =>
      intro acc hacc hl rc hrc
      rcases List.mem_cons.mp hrc with h | h
      · rw [h]
        simpa using hacc
      · exact ih (acc + r.total_net_value)
          (add_nonneg hacc (hl r (List.mem_cons_self r t)))
          (fun x hx => hl x (List.mem_cons_of_mem r hx)) rc h

theorem withCumsum_head_ge (acc : ℚ) (l : List SummaryRow)
    (hl : ∀ r ∈ l, 0 ≤ r.total_net_value) :
    ∀ rc ∈ (withCumsum acc l).head?, acc ≤ rc.2 := by
  cases l with
  | nil => simp [withCumsum]
  | cons r t =>
      intro rc hrc
      simp only [withCumsum, List.head?_cons, Option.mem_def, Option.some_inj] at hrc
      rw [← hrc]
      simpa using hl r (List.mem_cons_self r t)

/-- The running cumsums are non-decreasing when all totals are
nonnegative. -/
theorem withCumsum_chain (l : List SummaryRow) : ∀ acc : ℚ,
    (∀ r ∈ l, 0 ≤ r.total_net_value) →
    List.Chain' (fun a b : SummaryRow × ℚ => a.2 ≤ b.2) (withCumsum acc l) := by
  induction l with
  | nil => intro acc _; simp [withCumsum]
  | cons r t ih =>
      intro acc hl
      rw [withCumsum]
      refine List.chain'_cons'.mpr ⟨?_, ih (acc + r.total_net_value)
        (fun x hx => hl x (List.mem_cons_of_mem r hx))⟩
      intro b hb
      exact withCumsum_head_ge (acc + r.total_net_value) t
        (fun x hx => hl x (List.mem_cons_of_mem r hx)) b hb

/-- The last running cumsum is the accumulator plus the column sum. -/
theorem withCumsum_getLast_snd (l : List SummaryRow) : ∀ acc : ℚ, l ≠ [] →
    ((withCumsum acc l).map Prod.snd).getLast? =
      some (acc + (l.map (fun r => r.total_net_value)).sum) := by
  induction l with
  | nil => intro acc h; exact absurd rfl h
  | cons r t ih =>
      intro acc _
      cases t with
      | nil => simp [withCumsum]
      | cons r' t' =>
          have hih := ih (acc + r.total_net_value) (by simp)
          simp only [withCumsum, List.map_cons] at hih ⊢
          rw [List.getLast?_cons_cons, hih]
          congr 1
          simp only [List.map_cons, List.sum_cons]
          ring

theorem FV.div_num_num {α : Type} [LinearOrderedField α] {a b : α} (hb : b ≠ 0) :
    FV.div (FV.num a) (FV.num b) = FV.num (a / b) := by
  simp [FV.div, hb]

/-- Pointwise "is a number and non-decreasing" relation on float cells. -/
def fvNumLe : FV ℚ → FV ℚ → Prop
  | FV.num x, FV.num y => x ≤ y
  | _, _ => False

-- ------------------------------------------------------------------
-- C7: the cumulative-spend percentage column
-- ------------------------------------------------------------------

/-- C7 amended: when every per-(product, description) spend total is
nonnegative and the grand total is positive, the `cum_spend_pct` column
is non-decreasing and its final value is exactly 100; and — for every
input table, unconditionally — every row flagged critical has
`supplier_count = 1` (it is one of the conjuncts of the selection
mask). -/
theorem cum_pct_monotone_ends_100 (df : List Row) :
    ((∀ r ∈ skuSummary df, 0 ≤ r.total_net_value) → 0 < grandTotal df →
      List.Chain' fvNumLe (cumPctList df) ∧
      (cumPctList df).getLast? = some (FV.num 100)) ∧
    List.Forall (fun r => r.supplier_count = 1) (criticalRows df) := by
  constructor
  · intro h1 h2
    have h1' : ∀ r ∈ skuSummarySorted df, 0 ≤ r.total_net_value := by
      intro r hr
      exact h1 r (mem_sortDesc.mp hr)
    have hS : grandTotal df ≠ 0 := ne_of_gt h2
    have hform : cumPctList df = (withCumsum 0 (skuSummarySorted df)).map
        (fun rc => FV.num (rc.2 / grandTotal df * 100)) := by
      simp only [cumPctList, cumPctPairs, List.map_map]
      refine List.map_congr_left ?_
      intro rc _
      simp [FV.div_num_num hS, FV.mul100]
    constructor
    · rw [hform, List.chain'_map]
      refine List.Chain'.imp ?_ (withCumsum_chain (skuSummarySorted df) 0 h1')
      intro a b hab
      show a.2 / grandTotal df * 100 ≤ b.2 / grandTotal df * 100
      exact mul_le_mul_of_nonneg_right
        ((div_le_div_iff_of_pos_right h2).mpr hab) (by norm_num)
    · have hne : skuSummarySorted df ≠ [] := by
        intro hnil
        rw [grandTotal, hnil] at h2
        simp at h2
      rw [hform]
      have hlast := withCumsum_getLast_snd (skuSummarySorted df) 0 hne
      have : ((withCumsum 0 (skuSummarySorted df)).map
          (fun rc => FV.num (rc.2 / grandTotal df * 100))) =
        (((withCumsum 0 (skuSummarySorted df)).map Prod.snd).map
          (fun x => FV.num (x / grandTotal df * 100))) := by
        simp [List.map_map]
      rw [this, List.getLast?_map, hlast]
      have hsum : (0 : ℚ) + ((skuSummarySorted df).map
          (fun r => r.total_net_value)).sum = grandTotal df := by
        rw [grandTotal]; ring
      simp [hsum, div_self hS]
  · rw [List.forall_iff_forall_mem]
    intro r hr
    have := (List.mem_filter.mp hr).2
    simp at this
    exact this.2

/-- Witness for C7 (amended) at the two-row example table. -/
theorem cum_pct_monotone_ends_100_witness :
    (List.Chain' fvNumLe (cumPctList exKpi) ∧
      (cumPctList exKpi).getLast? = some (FV.num 100)) ∧
    List.Forall (fun r => r.supplier_count = 1) (criticalRows exKpi) := by
  have hsum : skuSummary exKpi =
      [{ product_id := "P1", description := "W", total_net_value := 30,
         supplier_count := 2 }] := by
    norm_num +decide [skuSummary, groupKeys2, groupRows2, key2, uniq, uniqGo,
      sumO, nuniq, exKpi, List.filterMap_cons, List.filter_cons, Option.bind]
  refine ⟨(cum_pct_monotone_ends_100 exKpi).1 ?_ ?_,
    (cum_pct_monotone_ends_100 exKpi).2⟩
  · rw [hsum]
    intro r hr
    rw [List.mem_singleton] at hr
    rw [hr]
    norm_num
  · rw [grandTotal, skuSummarySorted, hsum]
    norm_num [sortDesc, insertDesc]

/-- The table that refutes C7 as stated: a product with negative total
spend makes the cumulative percentage sequence decrease. -/
def exNegSpend : List Row :=
  [ { purchase_order_id := some "PO1", product_id := some "A",
      supplier_id := some "S1", department := some "D", description := some "a",
      quantity := some 1, unit_price := some 100, net_value := some 100,
      created_month := 0 },
    { purchase_order_id := some "PO2", product_id := some "B",
      supplier_id := some "S2", department := some "D", description := some "b",
      quantity := some 1, unit_price := some 50, net_value := some (-50),
      created_month := 0 } ]

/-- Counterexample to C7 as stated: on `exNegSpend` the cumulative-spend
percentage column is [200, 100], which is strictly decreasing. -/
theorem cum_pct_not_monotone_example :
    ¬ List.Chain' fvNumLe (cumPctList exNegSpend) := by
  have hcomp : cumPctList exNegSpend = [FV.num 200, FV.num 100] := by
    norm_num +decide [cumPctList, cumPctPairs, withCumsum, skuSummarySorted,
      sortDesc, insertDesc, skuSummary, groupKeys2, groupRows2, key2, uniq,
      uniqGo, sumO, nuniq, grandTotal, FV.div, FV.mul100, exNegSpend,
      List.filterMap_cons, List.filter_cons, Option.bind]
  rw [hcomp]
  intro h
  have h12 := (List.chain'_cons.mp h).1
  have : (200 : ℚ) ≤ 100 := h12
  norm_num at this

-- ------------------------------------------------------------------
-- C1: the ≤ 80 cumulative cut and a dominant-share product
-- ------------------------------------------------------------------

/-- C1 amended: a product whose every summary row holds strictly more
than 80% of a positive grand total is NOT in the top-spend cut (its own
cumulative percentage already exceeds 80), hence never appears in
`calculate_critical_suppliers` — even when single-sourced; ties at the
boundary are still included, since a row whose cumulative percentage is
exactly 80 passes the `<=` comparison. -/
theorem dominant_share_product_not_critical (df : List Row) (p : String)
    (h1 : ∀ r ∈ skuSummary df, 0 ≤ r.total_net_value)
    (h2 : 0 < grandTotal df)
    (h3 : ∀ r ∈ skuSummary df, r.product_id = p →
      4 / 5 * grandTotal df < r.total_net_value) :
    List.Forall (fun out => out.product_id ≠ p)
      (calculate_critical_suppliers df) ∧
    ∀ rc ∈ cumPctPairs df, rc.2 = FV.num 80 →
      rc.1.product_id ∈ topSpendIds df := by
  have hnot : p ∉ topSpendIds df := by
    intro hp
    rcases List.mem_filterMap.mp hp with ⟨rc, hrc, hif⟩
    by_cases hle : FV.leB rc.2 80
    · rw [if_pos hle] at hif
      have hprod := Option.some_inj.mp hif
      rcases List.mem_map.mp hrc with ⟨sc, hsc, rfl⟩
      have hfst : sc.1 ∈ skuSummarySorted df := by
        have := List.mem_map_of_mem Prod.fst hsc
        rwa [withCumsum_map_fst] at this
      have hmem : sc.1 ∈ skuSummary df := mem_sortDesc.mp hfst
      have hself : sc.1.total_net_value ≤ sc.2 :=
        withCumsum_self_le (skuSummarySorted df) 0 le_rfl
          (fun r hr => h1 r (mem_sortDesc.mp hr)) sc hsc
      have hbig : 4 / 5 * grandTotal df < sc.2 :=
        lt_of_lt_of_le (h3 sc.1 hmem hprod) hself
      rw [show FV.mul100 (FV.div (FV.num sc.2) (FV.num (grandTotal df))) =
          FV.num (sc.2 / grandTotal df * 100) by
        simp [FV.div_num_num (ne_of_gt h2), FV.mul100]] at hle
      simp only [FV.leB, decide_eq_true_eq] at hle
      have hgt : 80 < sc.2 / grandTotal df * 100 := by
        rw [show sc.2 / grandTotal df * 100 = sc.2 * 100 / grandTotal df by ring,
          lt_div_iff h2]
        nlinarith [hbig, h2]
      linarith
    · rw [if_neg hle] at hif
      simp at hif
  constructor
  · rw [List.forall_iff_forall_mem]
    intro out hout
    rcases List.mem_flatMap.mp (mem_sortDesc.mp hout) with ⟨cr, hcr, hinner⟩
    rcases List.mem_filterMap.mp hinner with ⟨ps, _, hif⟩
    have hcrit := (List.mem_filter.mp hcr).2
    simp only [decide_eq_true_eq] at hcrit
    by_cases hps : ps.1 = some cr.product_id
    · rw [if_pos hps] at hif
      have hout' := Option.some_inj.mp hif
      intro hp
      rw [← hout'] at hp
      simp only at hp
      exact hnot (hp ▸ hcrit.1)
    · rw [if_neg hps] at hif
      simp at hif
  · intro rc hrc heq
    refine List.mem_filterMap.mpr ⟨rc, hrc, ?_⟩
    rw [heq]
    simp [FV.leB]

/-- The spec §8 risk fixture: product `A` holds 90% of total spend with
a single supplier, product `B` the remaining 10%. -/
def exPareto : List Row :=
  [ { purchase_order_id := some "PO1", product_id := some "A",
      supplier_id := some "S1", department := some "D", description := some "a",
      quantity := some 1, unit_price := some 90, net_value := some 90,
      created_month := 0 },
    { purchase_order_id := some "PO2", product_id := some "B",
      supplier_id := some "S2", department := some "D", description := some "b",
      quantity := some 1, unit_price := some 10, net_value := some 10,
      created_month := 0 } ]

/-- Counterexample to C1 as stated: on `exPareto` the single-sourced
product `A` with 90% of total spend is absent from the output (its own
cumulative percentage is 90 > 80), so the claimed inclusion fails. -/
theorem dominant_share_product_excluded_example :
    calculate_critical_suppliers exPareto = [] := by
  norm_num +decide [calculate_critical_suppliers, criticalRows, topSpendIds,
    cumPctPairs, withCumsum, skuSummarySorted, sortDesc, insertDesc,
    skuSummary, groupKeys2, groupRows2, key2, uniq, uniqGo, sumO, nuniq,
    grandTotal, FV.div, FV.mul100, FV.leB, supplierPairs, exPareto,
    List.filterMap_cons, List.filter_cons, Option.bind]

/-- Witness for C1 (amended) on the 90/10 fixture. -/
theorem dominant_share_product_not_critical_witness :
    List.Forall (fun out => out.product_id ≠ "A")
      (calculate_critical_suppliers exPareto) := by
  have hsum : skuSummary exPareto =
      [{ product_id := "A", description := "a", total_net_value := 90,
         supplier_count := 1 },
       { product_id := "B", description := "b", total_net_value := 10,
         supplier_count := 1 }] := by
    norm_num +decide [skuSummary, groupKeys2, groupRows2, key2, uniq, uniqGo,
      sumO, nuniq, exPareto, List.filterMap_cons, List.filter_cons, Option.bind]
  have hgt : grandTotal exPareto = 100 := by
    rw [grandTotal, skuSummarySorted, hsum]
    norm_num [sortDesc, insertDesc]
  refine (dominant_share_product_not_critical exPareto "A" ?_ ?_ ?_).1
  · rw [hsum]
    intro r hr
    rcases List.mem_cons.mp hr with h | h
    · rw [h]; norm_num
    · rw [List.mem_singleton] at h; rw [h]; norm_num
  · rw [hgt]; norm_num
  · rw [hsum, hgt]
    intro r hr hp
    rcases List.mem_cons.mp hr with h | h
    · rw [h]; norm_num
    · rw [List.mem_singleton] at h
      rw [h] at hp
      simp at hp

-- ------------------------------------------------------------------
-- Volatility helper lemmas
-- ------------------------------------------------------------------

theorem mem_uniqGo {α : Type} [DecidableEq α] (l : List α) :
    ∀ (seen : List α) (x : α), x ∈ uniqGo seen l ↔ x ∈ l ∧ x ∉ seen := by
  induction l with
  | nil => intro seen x; simp [uniqGo]
  | cons a t ih =>
      intro seen x
      rw [uniqGo]
      by_cases ha : a ∈ seen
      · rw [if_pos ha, ih seen x]
        constructor
        · exact fun h => ⟨List.mem_cons_of_mem a h.1, h.2⟩
        · rintro ⟨hx, hns⟩
          rcases List.mem_cons.mp hx with rfl | hx
          · exact absurd ha hns
          · exact ⟨hx, hns⟩
      · rw [if_neg ha]
        constructor
        · intro h
          rcases List.mem_cons.mp h with rfl | h
          · exact ⟨List.mem_cons_self _ _, ha⟩
          · have := (ih (a :: seen) x).mp h
            refine ⟨List.mem_cons_of_mem a this.1, fun hx => this.2 (List.mem_cons_of_mem a hx)⟩
        · rintro ⟨hx, hns⟩
          rcases List.mem_cons.mp hx with rfl | hx
          · exact List.mem_cons_self _ _
          · by_cases hxa : x = a
            · rw [hxa]; exact List.mem_cons_self _ _
            · exact List.mem_cons_of_mem a ((ih (a :: seen) x).mpr
                ⟨hx, by simp [hxa, hns]⟩)

theorem mem_uniq {α : Type} [DecidableEq α] {l : List α} {x : α} :
    x ∈ uniq l ↔ x ∈ l := by
  rw [uniq, mem_uniqGo]
  simp

/-- A list whose distinct values number exactly one is a nonempty
constant list. -/
theorem uniq_length_one {α : Type} [DecidableEq α] {l : List α}
    (h : (uniq l).length = 1) : ∃ a, l ≠ [] ∧ ∀ x ∈ l, x = a := by
  rcases List.length_eq_one.mp h with ⟨a, ha⟩
  refine ⟨a, ?_, ?_⟩
  · intro hnil
    rw [hnil] at ha
    simp [uniq, uniqGo] at ha
  · intro x hx
    have : x ∈ uniq l := mem_uniq.mpr hx
    rw [ha, List.mem_singleton] at this
    exact this

theorem ratsToReals_cons (a : ℚ) (t : List ℚ) :
    ratsToReals (a :: t) = (a : ℝ) :: ratsToReals t := by
  rw [ratsToReals, ratsToReals, List.map_cons]

theorem ratsToReals_length (l : List ℚ) :
    (ratsToReals l).length = l.length := by
  rw [ratsToReals, List.length_map]

theorem mem_ratsToReals {l : List ℚ} {x : ℝ} :
    x ∈ ratsToReals l ↔ ∃ q ∈ l, (Rat.cast q : ℝ) = x := by
  rw [ratsToReals, List.mem_map]

theorem castSum (l : List ℚ) :
    (ratsToReals l).sum = ((l.sum : ℚ) : ℝ) := by
  induction l with
  | nil => simp [ratsToReals]
  | cons a t ih =>
      rw [ratsToReals_cons, List.sum_cons, List.sum_cons, Rat.cast_add, ih]

theorem castSumSq (l : List ℚ) :
    ((ratsToReals l).map (fun x => x ^ 2)).sum =
      (((l.map (fun x => x * x)).sum : ℚ) : ℝ) := by
  induction l with
  | nil => simp [ratsToReals]
  | cons a t ih =>
      rw [ratsToReals_cons, List.map_cons, List.sum_cons, List.map_cons,
        List.sum_cons, Rat.cast_add, Rat.cast_mul, ih]
      ring

theorem listSumConst {c : ℝ} : ∀ L : List ℝ, (∀ x ∈ L, x = c) →
    L.sum = L.length * c := by
  intro L
  induction L with
  | nil => intro _; simp
  | cons v vs ih =>
      intro h
      have hv := h v (List.mem_cons_self v vs)
      have hvs := ih (fun x hx => h x (List.mem_cons_of_mem v hx))
      simp only [List.sum_cons, List.length_cons, hv, hvs]
      push_cast
      ring

theorem listSumNonnegR : ∀ L : List ℝ, (∀ x ∈ L, 0 ≤ x) → 0 ≤ L.sum := by
  intro L
  induction L with
  | nil => intro _; simp
  | cons v vs ih =>
      intro h
      simp only [List.sum_cons]
      exact add_nonneg (h v (List.mem_cons_self v vs))
        (ih (fun x hx => h x (List.mem_cons_of_mem v hx)))

theorem listSumZeroAllZero : ∀ L : List ℝ, (∀ x ∈ L, 0 ≤ x) → L.sum = 0 →
    ∀ x ∈ L, x = 0 := by
  intro L
  induction L with
  | nil => intro _ _ x hx; simp at hx
  | cons v vs ih =>
      intro h hsum x hx
      have hvs : 0 ≤ vs.sum := listSumNonnegR vs
        (fun y hy => h y (List.mem_cons_of_mem v hy))
      have hv : 0 ≤ v := h v (List.mem_cons_self v vs)
      rw [List.sum_cons] at hsum
      have hv0 : v = 0 := by linarith
      have hvs0 : vs.sum = 0 := by linarith
      rcases List.mem_cons.mp hx with rfl | hx
      · exact hv0
      · exact ih (fun y hy => h y (List.mem_cons_of_mem v hy)) hvs0 x hx

/-- Shape of the CV cell produced by `priceStats` for a group with price
list `pr`, after `fillna(0)`. -/
noncomputable def cvCell (pr : List ℚ) : FV ℝ :=
  FV.fillna0 (FV.mul100 (FV.div (priceStd pr) (priceMean pr)))

/-- A group whose present prices are all one value has CV 0 after
fillna: a single observation gives a NaN std (hence NaN CV), two or more
equal observations give std 0. -/
theorem cvCell_zero_of_const (pr : List ℚ)
    (h : (uniq pr).length = 1) : cvCell pr = FV.num 0 := by
  rcases uniq_length_one h with ⟨a, hne, hall⟩
  rcases pr with _ | ⟨v, vs⟩
  · exact absurd rfl hne
  rcases vs with _ | ⟨w, ws⟩
  · -- one observation: std is NaN
    rw [cvCell, priceStd]
    norm_num [FV.div, FV.mul100, FV.fillna0]
  · -- at least two equal observations
    have hlen0 : ((v :: w :: ws).length : ℝ) ≠ 0 := by
      push_cast [List.length_cons]
      positivity
    have hallR : ∀ x ∈ ratsToReals (v :: w :: ws), x = (a : ℝ) := by
      intro x hx
      rcases mem_ratsToReals.mp hx with ⟨q, hq, rfl⟩
      rw [hall q hq]
    have hsumR : (ratsToReals (v :: w :: ws)).sum =
        ((v :: w :: ws).length : ℝ) * a := by
      rw [listSumConst _ hallR, ratsToReals_length]
    have hSdiv : (ratsToReals (v :: w :: ws)).sum /
        ((v :: w :: ws).length : ℝ) = (a : ℝ) := by
      rw [hsumR, mul_div_cancel_left₀ _ hlen0]
    have hmean : priceMean (v :: w :: ws) = FV.num (a : ℝ) := by
      rw [priceMean, if_neg (by simp)]
      rw [hSdiv]
    have hstd : priceStd (v :: w :: ws) = FV.num 0 := by
      rw [priceStd, if_neg (by simp)]
      have hterms : ∀ y ∈ (ratsToReals (v :: w :: ws)).map
          (fun x => (x - (ratsToReals (v :: w :: ws)).sum /
            ((v :: w :: ws).length : ℝ)) ^ 2), y = 0 := by
        intro y hy
        rcases List.mem_map.mp hy with ⟨x, hx, rfl⟩
        rw [hSdiv, hallR x hx]
        ring
      rw [listSumConst _ hterms]
      simp
    rw [cvCell, hmean, hstd]
    by_cases ha : (a : ℝ) = 0
    · simp [FV.div, FV.mul100, FV.fillna0, ha]
    · simp [FV.div, FV.mul100, FV.fillna0, ha]

/-- "Is a finite nonnegative number" predicate on output float cells. -/
def FV.isNonnegNum : FV ℝ → Prop
  | FV.num x => 0 ≤ x
  | _ => False

/-- "Is a negative value" predicate on output float cells. -/
def FV.isNeg : FV ℝ → Prop
  | FV.num x => x < 0
  | FV.ninf => True
  | _ => False

/-- With nonnegative prices the CV cell is always a nonnegative finite
number after fillna. -/
theorem cvCell_nonneg (pr : List ℚ) (h : ∀ x ∈ pr, 0 ≤ x) :
    FV.isNonnegNum (cvCell pr) := by
  rcases pr with _ | ⟨v, vs⟩
  · rw [cvCell, priceMean, priceStd]
    norm_num [FV.div, FV.mul100, FV.fillna0, FV.isNonnegNum]
  rcases vs with _ | ⟨w, ws⟩
  · rw [cvCell, priceStd]
    norm_num [FV.div, FV.mul100, FV.fillna0, FV.isNonnegNum]
  have hlenpos : (0 : ℝ) < (((v :: w :: ws).length : ℕ) : ℝ) := by
    push_cast [List.length_cons]
    positivity
  have hnonnegR : ∀ x ∈ ratsToReals (v :: w :: ws), 0 ≤ x := by
    intro x hx
    rcases mem_ratsToReals.mp hx with ⟨q, hq, rfl⟩
    exact_mod_cast h q hq
  have hmean : priceMean (v :: w :: ws) =
      FV.num ((ratsToReals (v :: w :: ws)).sum / ((v :: w :: ws).length : ℝ)) := by
    rw [priceMean, if_neg (by simp)]
  have hstd : priceStd (v :: w :: ws) =
      FV.num (Real.sqrt (((ratsToReals (v :: w :: ws)).map
        (fun x => (x - (ratsToReals (v :: w :: ws)).sum /
          ((v :: w :: ws).length : ℝ)) ^ 2)).sum /
        (((v :: w :: ws).length : ℝ) - 1))) := by
    rw [priceStd, if_neg (by simp)]
  by_cases hm : (ratsToReals (v :: w :: ws)).sum = 0
  · have hall0 : ∀ x ∈ ratsToReals (v :: w :: ws), x = 0 :=
      listSumZeroAllZero _ hnonnegR hm
    have hterms : ∀ y ∈ (ratsToReals (v :: w :: ws)).map
        (fun x => (x - (ratsToReals (v :: w :: ws)).sum /
          ((v :: w :: ws).length : ℝ)) ^ 2), y = 0 := by
      intro y hy
      rcases List.mem_map.mp hy with ⟨x, hx, rfl⟩
      rw [hall0 x hx, hm, zero_div]
      ring
    rw [cvCell, hmean, hstd, listSumConst _ hterms, hm]
    norm_num [FV.div, FV.mul100, FV.fillna0, FV.isNonnegNum]
  · have hsumpos : 0 < (ratsToReals (v :: w :: ws)).sum :=
      lt_of_le_of_ne (listSumNonnegR _ hnonnegR) (Ne.symm hm)
    have hmpos : 0 < (ratsToReals (v :: w :: ws)).sum /
        ((v :: w :: ws).length : ℝ) := div_pos hsumpos hlenpos
    rw [cvCell, hmean, hstd]
    have hs0 : 0 ≤ Real.sqrt (((ratsToReals (v :: w :: ws)).map
        (fun x => (x - (ratsToReals (v :: w :: ws)).sum /
          ((v :: w :: ws).length : ℝ)) ^ 2)).sum /
        (((v :: w :: ws).length : ℝ) - 1)) := Real.sqrt_nonneg _
    simp only [FV.div, FV.mul100, FV.fillna0, if_neg hmpos.ne']
    simp only [FV.isNonnegNum]
    positivity

/-- With at least two present prices summing to zero and a positive sum
of squares, the CV cell is +inf (and fillna does not touch it). -/
theorem cvCell_pinf (pr : List ℚ) (hlen : 2 ≤ pr.length)
    (hsum : pr.sum = 0)
    (hvar : 0 < (pr.map (fun x => x * x)).sum) : cvCell pr = FV.pinf := by
  have hlen' : ¬ pr.length < 2 := not_lt.mpr hlen
  have hlen0 : ¬ pr.length = 0 := by omega
  have hcast : (ratsToReals pr).sum = 0 := by
    rw [castSum, hsum]
    simp
  have hmean : priceMean pr = FV.num 0 := by
    rw [priceMean, if_neg hlen0, hcast, zero_div]
  have hterms : (ratsToReals pr).map
      (fun x => (x - (ratsToReals pr).sum / (pr.length : ℝ)) ^ 2) =
      (ratsToReals pr).map (fun x => x ^ 2) := by
    refine List.map_congr_left ?_
    intro x _
    rw [hcast, zero_div, sub_zero]
  have hvarR : 0 < ((ratsToReals pr).map (fun x => x ^ 2)).sum /
      ((pr.length : ℝ) - 1) := by
    apply div_pos
    · rw [castSumSq]
      exact_mod_cast hvar
    · have h2 : (2 : ℝ) ≤ (pr.length : ℝ) := by exact_mod_cast hlen
      linarith
  have hstd : priceStd pr = FV.num (Real.sqrt
      (((ratsToReals pr).map (fun x => x ^ 2)).sum / ((pr.length : ℝ) - 1))) := by
    rw [priceStd, if_neg hlen', hterms]
  have hs : 0 < Real.sqrt (((ratsToReals pr).map (fun x => x ^ 2)).sum /
      ((pr.length : ℝ) - 1)) := Real.sqrt_pos.mpr hvarR
  rw [cvCell, hstd, hmean]
  simp [FV.div, FV.mul100, FV.fillna0, hs.ne', hs]

-- ------------------------------------------------------------------
-- C9: CV of single-price products, and the sign of CV
-- ------------------------------------------------------------------

/-- C9 amended: (for every input) a product group with exactly one
distinct present `unit_price` value has CV 0 — the undefined std of a
single observation resolves to 0 via fillna, equal repeated prices give
std 0 — and, provided all (present) unit prices are nonnegative, every
CV cell is a nonnegative finite number. -/
theorem volatility_cv_single_zero_and_nonneg (df : List Row) :
    List.Forall (fun vr =>
        (uniq (presentPrices df (vr.product_id, vr.description))).length = 1 →
          vr.cv = FV.num 0)
      (calculate_price_volatility df) ∧
    ((∀ r ∈ df, 0 ≤ r.unit_price.getD 0) →
      List.Forall (fun vr => FV.isNonnegNum vr.cv)
        (calculate_price_volatility df)) := by
  constructor
  · rw [List.forall_iff_forall_mem]
    intro vr hvr
    rcases List.mem_map.mp hvr with ⟨vr0, hvr0, rfl⟩
    rcases List.mem_map.mp hvr0 with ⟨k, _, rfl⟩
    intro hone
    exact cvCell_zero_of_const _ hone
  · intro hnn
    rw [List.forall_iff_forall_mem]
    intro vr hvr
    rcases List.mem_map.mp hvr with ⟨vr0, hvr0, rfl⟩
    rcases List.mem_map.mp hvr0 with ⟨k, _, rfl⟩
    refine cvCell_nonneg _ ?_
    intro x hx
    rcases List.mem_filterMap.mp hx with ⟨r, hr, hpr⟩
    have h0 := hnn r (List.mem_filter.mp hr).1
    rw [hpr] at h0
    simpa using h0

/-- A one-row table with a single observed price. -/
def exSinglePrice : List Row :=
  [ { purchase_order_id := some "PO1", product_id := some "P",
      supplier_id := some "S1", department := some "D", description := some "x",
      quantity := some 1, unit_price := some 5, net_value := some 5,
      created_month := 0 } ]

/-- Witness for C9 (amended) on a one-row, one-price table. -/
theorem volatility_cv_single_zero_and_nonneg_witness :
    List.Forall (fun vr =>
        (uniq (presentPrices exSinglePrice (vr.product_id, vr.description))).length = 1 →
          vr.cv = FV.num 0)
      (calculate_price_volatility exSinglePrice) ∧
    List.Forall (fun vr => FV.isNonnegNum vr.cv)
      (calculate_price_volatility exSinglePrice) :=
  ⟨(volatility_cv_single_zero_and_nonneg exSinglePrice).1,
   (volatility_cv_single_zero_and_nonneg exSinglePrice).2 (by decide)⟩

/-- The table that refutes the "CV is never negative" half of C9: one
product priced at -1 and -3 (negative values are not excluded by the
input contract). -/
def exNegPrice : List Row :=
  [ { purchase_order_id := some "PO1", product_id := some "P",
      supplier_id := some "S1", department := some "D", description := some "x",
      quantity := some 1, unit_price := some (-1), net_value := some (-1),
      created_month := 0 },
    { purchase_order_id := some "PO2", product_id := some "P",
      supplier_id := some "S2", department := some "D", description := some "x",
      quantity := some 1, unit_price := some (-3), net_value := some (-3),
      created_month := 0 } ]

/-- Counterexample to C9 as stated: on `exNegPrice` the single
volatility row has a strictly negative CV (mean -2, std √2). -/
theorem volatility_cv_negative_example :
    (calculate_price_volatility exNegPrice).length = 1 ∧
    List.Forall (fun vr => FV.isNeg vr.cv)
      (calculate_price_volatility exNegPrice) := by
  have hkeys : groupKeys2 exNegPrice = [("P", "x")] := by decide
  have hpr : presentPrices exNegPrice ("P", "x") = [-1, -3] := by decide
  have hmean : priceMean [(-1 : ℚ), -3] = FV.num (-2) := by
    rw [priceMean, if_neg (by norm_num)]
    norm_num [ratsToReals]
  have hstd : priceStd [(-1 : ℚ), -3] = FV.num (Real.sqrt 2) := by
    rw [priceStd, if_neg (by norm_num)]
    norm_num [ratsToReals]
  have hpos : (0 : ℝ) < Real.sqrt 2 := Real.sqrt_pos.mpr (by norm_num)
  have hcv : cvCell [(-1 : ℚ), -3] = FV.num (Real.sqrt 2 / (-2) * 100) := by
    rw [cvCell, hmean, hstd]
    norm_num [FV.div, FV.mul100, FV.fillna0]
  have hneg : Real.sqrt 2 / (-2) * 100 < 0 :=
    mul_neg_of_neg_of_pos
      (div_neg_of_pos_of_neg hpos (by norm_num)) (by norm_num)
  constructor
  · rw [calculate_price_volatility, priceStats, hkeys]
    simp
  · rw [calculate_price_volatility, priceStats, hkeys]
    simp only [List.map_cons, List.map_nil]
    rw [List.forall_cons]
    refine ⟨?_, trivial⟩
    show FV.isNeg (FV.fillna0 (FV.mul100 (FV.div
      (priceStd (presentPrices exNegPrice ("P", "x")))
      (priceMean (presentPrices exNegPrice ("P", "x"))))))
    rw [hpr]
    rw [show FV.fillna0 (FV.mul100 (FV.div (priceStd [(-1 : ℚ), -3])
      (priceMean [(-1 : ℚ), -3]))) = cvCell [(-1 : ℚ), -3] from rfl]
    rw [hcv]
    exact hneg

-- ------------------------------------------------------------------
-- C3: zero mean with nonzero std — inf, not the sentinel
-- ------------------------------------------------------------------

/-- C3 amended: a (product, description) group with at least two present
prices, price sum 0 (mean exactly zero) and a positive sum of squared
prices (nonzero std), gets CV = +inf; `fillna(0)` leaves it, and the
JSON boundary passes it through as an infinite value — only NaN becomes
the `None` sentinel. -/
theorem volatility_cv_pinf_zero_mean (df : List Row) (k : String × String)
    (hlen : 2 ≤ (presentPrices df k).length)
    (hsum : (presentPrices df k).sum = 0)
    (hvar : 0 < ((presentPrices df k).map (fun x => x * x)).sum) :
    List.Forall (fun vr => vr.product_id = k.1 → vr.description = k.2 →
        vr.cv = FV.pinf ∧ to_json_safe vr.cv = some FV.pinf)
      (calculate_price_volatility df) := by
  rw [List.forall_iff_forall_mem]
  intro vr hvr
  rcases List.mem_map.mp hvr with ⟨vr0, hvr0, rfl⟩
  rcases List.mem_map.mp hvr0 with ⟨k', _, rfl⟩
  intro hp hd
  have hp' : k'.1 = k.1 := hp
  have hd' : k'.2 = k.2 := hd
  have hkk : k' = k := Prod.ext hp' hd'
  subst hkk
  have hcv := cvCell_pinf (presentPrices df k') hlen hsum hvar
  refine ⟨hcv, ?_⟩
  rw [show (VolRow.fillna0
    { product_id := k'.1, description := k'.2,
      mean := priceMean (presentPrices df k'),
      std := priceStd (presentPrices df k'),
      cv := FV.mul100 (FV.div (priceStd (presentPrices df k'))
        (priceMean (presentPrices df k'))) }).cv =
    cvCell (presentPrices df k') from rfl]
  rw [hcv]
  rfl

/-- A table whose single product group has prices -1 and 1: mean exactly
0 with nonzero std. -/
def exZeroMean : List Row :=
  [ { purchase_order_id := some "PO1", product_id := some "P",
      supplier_id := some "S1", department := some "D", description := some "x",
      quantity := some 1, unit_price := some (-1), net_value := some (-1),
      created_month := 0 },
    { purchase_order_id := some "PO2", product_id := some "P",
      supplier_id := some "S2", department := some "D", description := some "x",
      quantity := some 1, unit_price := some 1, net_value := some 1,
      created_month := 0 } ]

/-- Counterexample to C3 as stated: on `exZeroMean` the value delivered
at the JSON boundary for the zero-mean group is `+inf`, not the `None`
missing sentinel. -/
theorem volatility_inf_leaks_example :
    (calculate_price_volatility exZeroMean).map
      (fun vr => to_json_safe vr.cv) = [some FV.pinf] := by
  have hkeys : groupKeys2 exZeroMean = [("P", "x")] := by decide
  have hpr : presentPrices exZeroMean ("P", "x") = [-1, 1] := by decide
  have hc : cvCell [(-1 : ℚ), 1] = FV.pinf := by
    apply cvCell_pinf
    · norm_num
    · norm_num
    · norm_num
  rw [calculate_price_volatility, priceStats, hkeys]
  simp only [List.map_cons, List.map_nil]
  rw [hpr]
  rw [show (VolRow.fillna0
    { product_id := "P", description := "x",
      mean := priceMean [(-1 : ℚ), 1], std := priceStd [(-1 : ℚ), 1],
      cv := FV.mul100 (FV.div (priceStd [(-1 : ℚ), 1])
        (priceMean [(-1 : ℚ), 1])) }).cv =
    cvCell [(-1 : ℚ), 1] from rfl]
  rw [hc]
  rfl

/-- Witness for C3 (amended) on the zero-mean fixture. -/
theorem volatility_cv_pinf_zero_mean_witness :
    List.Forall (fun vr => vr.product_id = "P" → vr.description = "x" →
        vr.cv = FV.pinf ∧ to_json_safe vr.cv = some FV.pinf)
      (calculate_price_volatility exZeroMean) := by
  have hpr : presentPrices exZeroMean ("P", "x") = [-1, 1] := by decide
  exact volatility_cv_pinf_zero_mean exZeroMean ("P", "x")
    (by rw [hpr]; norm_num) (by rw [hpr]; norm_num) (by rw [hpr]; norm_num)

-- ------------------------------------------------------------------
-- C6: skip-at-2, three consecutive months at 3+
-- ------------------------------------------------------------------

theorem nodup_uniqGo {α : Type} [DecidableEq α] (l : List α) :
    ∀ seen : List α, (uniqGo seen l).Nodup := by
  induction l with
  | nil => intro seen; simp [uniqGo]
  | cons a t ih =>
      intro seen
      rw [uniqGo]
      by_cases ha : a ∈ seen
      · rw [if_pos ha]
        exact ih seen
      · rw [if_neg ha]
        refine List.nodup_cons.mpr ⟨?_, ih (a :: seen)⟩
        intro hmem
        exact ((mem_uniqGo t (a :: seen) a).mp hmem).2 (List.mem_cons_self a seen)

theorem nodup_uniq {α : Type} [DecidableEq α] (l : List α) : (uniq l).Nodup :=
  nodup_uniqGo l []

theorem top5_nodup (df : List Row) : (top5 df).Nodup := by
  have h1 : (productKeys df).Nodup := nodup_uniq _
  have h2 : (sortDesc (totalQty df) (productKeys df)).Nodup :=
    ((sortDesc_perm (totalQty df) (productKeys df)).nodup_iff).mpr h1
  exact (List.take_sublist 5 _).nodup h2

theorem forecastRowsFor_product (fit : List ℚ → ℚ) (df : List Row)
    (s : String) : ∀ fr ∈ forecastRowsFor fit df s, fr.product_id = s := by
  intro fr hfr
  rw [forecastRowsFor] at hfr
  split at hfr
  · split at hfr
    · rcases List.mem_map.mp hfr with ⟨k, _, rfl⟩
      rfl
    · rcases List.mem_map.mp hfr with ⟨k, _, rfl⟩
      rfl
  · simp at hfr

theorem filter_flatMap_forecast (fit : List ℚ → ℚ) (df : List Row) :
    ∀ l : List String, l.Nodup → ∀ sku ∈ l,
    (l.flatMap (forecastRowsFor fit df)).filter
        (fun fr => fr.product_id = sku) =
      forecastRowsFor fit df sku := by
  intro l
  induction l with
  | nil => intro _ sku h; simp at h
  | cons a t ih =>
      intro hnd sku hsku
      rw [List.flatMap_cons, List.filter_append]
      rcases List.mem_cons.mp hsku with rfl | hsku'
      · have h1 : (forecastRowsFor fit df sku).filter
            (fun fr => fr.product_id = sku) = forecastRowsFor fit df sku := by
          rw [List.filter_eq_self]
          intro fr hfr
          simp [forecastRowsFor_product fit df sku fr hfr]
        have h2 : (t.flatMap (forecastRowsFor fit df)).filter
            (fun fr => fr.product_id = sku) = [] := by
          rw [List.filter_eq_nil_iff]
          intro fr hfr
          rcases List.mem_flatMap.mp hfr with ⟨s', hs', hfr'⟩
          have hprod := forecastRowsFor_product fit df s' fr hfr'
          have hne : s' ≠ sku := by
            intro h
            exact (List.nodup_cons.mp hnd).1 (h ▸ hs')
          simp [hprod, hne]
        rw [h1, h2, List.append_nil]
      · have hane : a ≠ sku := by
          intro h
          exact (List.nodup_cons.mp hnd).1 (h ▸ hsku')
        have h1 : (forecastRowsFor fit df a).filter
            (fun fr => fr.product_id = sku) = [] := by
          rw [List.filter_eq_nil_iff]
          intro fr hfr
          simp [forecastRowsFor_product fit df a fr hfr, hane]
        rw [h1, List.nil_append, ih (List.nodup_cons.mp hnd).2 sku hsku']

/-- C6 amended: for every abstracted smoothing fit and every selected
(top-5) product, a monthly history of exactly 2 points contributes zero
forecast rows (silent skip); a history of 3 or more points contributes
exactly 3 rows; and when the observed months are consecutive calendar
months (inferred frequency 1 — the only case in which statsmodels dates
the forecast index monthly) those rows are dated at the 3 consecutive
calendar months immediately after the product's last observed month. -/
theorem forecast_skip_two_and_three_rows (fit : List ℚ → ℚ) (df : List Row)
    (sku : String) (hm : sku ∈ top5 df) :
    ((monthlyHistory df sku).length = 2 →
      (calculate_demand_forecast fit df).filter
        (fun fr => fr.product_id = sku) = []) ∧
    (2 < (monthlyHistory df sku).length →
      ((calculate_demand_forecast fit df).filter
        (fun fr => fr.product_id = sku)).length = 3) ∧
    (2 < (monthlyHistory df sku).length →
      inferFreq ((monthlyHistory df sku).map Prod.fst) = some 1 →
      (calculate_demand_forecast fit df).filter
        (fun fr => fr.product_id = sku) =
      [1, 2, 3].map (fun k =>
        { product_id := sku,
          forecast_date := FDate.month (maxMonth (monthlyHistory df sku) + k),
          forecast_quantity :=
            fit ((monthlyHistory df sku).map Prod.snd) })) := by
  have hfilter : (calculate_demand_forecast fit df).filter
      (fun fr => fr.product_id = sku) = forecastRowsFor fit df sku :=
    filter_flatMap_forecast fit df (top5 df) (top5_nodup df) sku hm
  refine ⟨?_, ?_, ?_⟩
  · intro h2
    rw [hfilter, forecastRowsFor]
    rw [if_neg (by omega)]
  · intro h3
    rw [hfilter, forecastRowsFor, if_pos h3]
    rcases inferFreq ((monthlyHistory df sku).map Prod.fst) with _ | d
    all_goals simp
  · intro h3 hfreq
    rw [hfilter, forecastRowsFor, if_pos h3, hfreq]
    simp [Nat.mul_one]

/-- The spec §8 forecasting fixture: one product with monthly
quantities 10, 12, 11 in three consecutive months. -/
def exForecast : List Row :=
  [ { purchase_order_id := some "PO1", product_id := some "P",
      supplier_id := some "S1", department := some "D", description := some "x",
      quantity := some 10, unit_price := some 1, net_value := some 10,
      created_month := 1 },
    { purchase_order_id := some "PO2", product_id := some "P",
      supplier_id := some "S1", department := some "D", description := some "x",
      quantity := some 12, unit_price := some 1, net_value := some 12,
      created_month := 2 },
    { purchase_order_id := some "PO3", product_id := some "P",
      supplier_id := some "S1", department := some "D", description := some "x",
      quantity := some 11, unit_price := some 1, net_value := some 11,
      created_month := 3 } ]

/-- Witness for C6 (amended): the consecutive three-month fixture yields
exactly 3 rows dated at the 3 months after the last observed one. -/
theorem forecast_skip_two_and_three_rows_witness :
    (calculate_demand_forecast (fun _ => 7) exForecast).filter
      (fun fr => fr.product_id = "P") =
    [ { product_id := "P", forecast_date := FDate.month 4,
        forecast_quantity := 7 },
      { product_id := "P", forecast_date := FDate.month 5,
        forecast_quantity := 7 },
      { product_id := "P", forecast_date := FDate.month 6,
        forecast_quantity := 7 } ] := by
  have h := (forecast_skip_two_and_three_rows (fun _ => 7) exForecast "P"
    (by decide)).2.2 (by decide) (by decide)
  rw [h]
  decide

/-- One product observed in months 1, 2 and 4: three monthly points with
no constant spacing (a gapped history). -/
def exGapped : List Row :=
  [ { purchase_order_id := some "PO1", product_id := some "P",
      supplier_id := some "S1", department := some "D", description := some "x",
      quantity := some 10, unit_price := some 1, net_value := some 10,
      created_month := 1 },
    { purchase_order_id := some "PO2", product_id := some "P",
      supplier_id := some "S1", department := some "D", description := some "x",
      quantity := some 12, unit_price := some 1, net_value := some 12,
      created_month := 2 },
    { purchase_order_id := some "PO3", product_id := some "P",
      supplier_id := some "S1", department := some "D", description := some "x",
      quantity := some 11, unit_price := some 1, net_value := some 11,
      created_month := 4 } ]

/-- Counterexample to C6 as stated: on the gapped history (months 1, 2,
4) no index frequency is inferable, so the three forecast rows carry the
integer positions 3, 4, 5 — not the consecutive calendar months 5, 6, 7
immediately following the last observed month. -/
theorem forecast_gapped_dates_not_months_example :
    (calculate_demand_forecast (fun _ => 7) exGapped).map
        (fun fr => fr.forecast_date) =
      [FDate.pos 3, FDate.pos 4, FDate.pos 5] ∧
    (calculate_demand_forecast (fun _ => 7) exGapped).map
        (fun fr => fr.forecast_date) ≠
      [FDate.month 5, FDate.month 6, FDate.month 7] := by
  constructor
  · decide
  · decide

end SQU
